import Mathlib

set_option autoImplicit false

/-!
Verification of the worker-pool supervisor of ChandraGen
(`src/chandragen/jobs/pooler.py`): worker lifecycle, the control-channel
protocol, the autoscaling policy, and crash/retry recovery, shallowly
embedded in Lean.  Worker identities (UUIDs in the source) are modelled as
naturals; the external job-queue gateway and the runner registry are
parameters; exceptions raised by the Python code are modelled as explicit
fault fields of result records, with the pool state they leave behind.
-/

namespace ChandraGen

/-- Worker identity.  The source uses `uuid4()` values; all that matters to
the pooler is distinctness, so identities are modelled as naturals. -/
abbrev WorkerId := Nat

/-- A value travelling over a worker's duplex control channel (the pickled
Python values of the pipe protocol: strings, booleans, job ids, `None`). -/
inductive PyVal where
  | pstr : String → PyVal
  | pbool : Bool → PyVal
  | pnat : Nat → PyVal
  | pnone : PyVal
deriving DecidableEq, Repr

/-- Supervisor-side view of one pool entry: what `process.is_alive()`
reports, and how the worker end of the channel behaves during
`stop_worker` / `get_worker_status`: whether a `["stop", True]`
acknowledgement arrives within the 5-unit timeout, whether
`process.kill()` raises, and whether (and with what) the worker answers a
status request within its timeout. -/
structure PoolWorker where
  alive : Bool
  acksStop : Bool
  killFails : Bool
  respondsStatus : Bool
  statusReply : List PyVal
deriving DecidableEq, Repr

/-- The pool `self.workers : dict[UUID, ...]`, modelled as an association
list in insertion order (Python dicts preserve insertion order;
`next(iter(self.workers.keys()))` is the head). -/
abbrev Pool := List (WorkerId × PoolWorker)

/-- Dict key lookup `self.workers[worker_id]` / `worker_id in self.workers`. -/
def pool_lookup (wid : WorkerId) : Pool → Option PoolWorker
  | [] => none
  | (k, w) :: rest => if k = wid then some w else pool_lookup wid rest

/-- Dict key removal `del self.workers[worker_id]` (also `.pop`): removes
the entry under that key, keeping order of the rest. -/
def pool_remove (wid : WorkerId) : Pool → Pool
  | [] => []
  | (k, w) :: rest => if k = wid then rest else (k, w) :: pool_remove wid rest

/-- Result of `ProcessPooler.stop_worker`: the pool afterwards and, when
the method raised `WorkerShutdownError`, the worker id it names. -/
structure StopResult where
  pool : Pool
  shutdown_error : Option WorkerId
deriving DecidableEq, Repr

/-- `ProcessPooler.stop_worker`.  Absent id: return with no change.  A
`["stop", True]` acknowledgement within the timeout: join, pop, return.
Otherwise `process.kill()` is attempted inside `try/except/finally`; the
`finally` block `del self.workers[worker_id]` runs on both the success and
the raising path, so the entry is deleted even when `WorkerShutdownError`
is raised. -/
def stop_worker (pool : Pool) (wid : WorkerId) : StopResult :=
  match pool_lookup wid pool with
  | none => ⟨pool, none⟩
  | some w =>
    if w.acksStop then ⟨pool_remove wid pool, none⟩
    else if w.killFails then ⟨pool_remove wid pool, some wid⟩
    else ⟨pool_remove wid pool, none⟩

/-- `ProcessPooler.get_worker_status`.  The subscript
`self.workers[worker_id]` raises `KeyError` on an absent id (modelled as
`Except.error ()`); otherwise the worker's reply, or the
`["no response", False]` sentinel after the 5-unit poll timeout. -/
def get_worker_status (pool : Pool) (wid : WorkerId) : Except Unit (List PyVal) :=
  match pool_lookup wid pool with
  | none => Except.error ()
  | some w =>
    if w.respondsStatus then Except.ok w.statusReply
    else Except.ok [PyVal.pstr "no response", PyVal.pbool false]

/-- `self.current_job` as sent in a status reply: a job id or `None`. -/
def optJobVal : Option Nat → PyVal
  | none => PyVal.pnone
  | some j => PyVal.pnat j

/-- One request/response round of `WorkerProcess.handle_ipc`, given the
worker's `running` flag and `current_job` field.  The message is `none`
when `isinstance(data, (list, tuple))` fails, otherwise the received
sequence.  Returns the `running` flag afterwards (`stop` calls
`self.stop()`, which clears it) and the reply sent on the pipe. -/
def handle_ipc (running : Bool) (current_job : Option Nat) :
    Option (List PyVal) → Bool × List PyVal
  | none => (running, [PyVal.pstr "error", PyVal.pstr "Invalid message format"])
  | some [] => (running, [PyVal.pstr "error", PyVal.pstr "Invalid message format"])
  | some (x :: _) =>
    if x = PyVal.pstr "stop" then
      (false, [PyVal.pstr "stop", PyVal.pbool true])
    else if x = PyVal.pstr "status" then
      (running, [PyVal.pstr "status", PyVal.pbool true, optJobVal current_job, PyVal.pbool running])
    else
      (running, [x, PyVal.pbool false])

/-- Calls `run_job` makes on the runner instance, in order. -/
inductive JobEvent where
  | runner_setup
  | runner_run
  | runner_cleanup
deriving DecidableEq, Repr

/-- The exception escaping `WorkerProcess.run_job`, when one does: the
`ValueError` for an unregistered job type, or an exception propagating out
of the runner's `setup` or `run`. -/
inductive JobError where
  | unknownJobType (job_type : String)
  | setupError
  | runError
deriving DecidableEq, Repr

/-- Behaviour of the runner instance `run_job` constructs: whether its
`setup` and `run` calls raise. -/
structure RunnerBehavior where
  setupRaises : Bool
  runRaises : Bool
deriving DecidableEq, Repr

/-- `WorkerProcess.run_job` on a claimed `(job_id, job_type)` pair.
`registered` is `RUNNER_REGISTRY.get`'s domain.  No runner: raise
`ValueError` with nothing called.  Otherwise `runner.setup()` (outside the
`try`), then `runner.run()` inside `try/finally runner.cleanup()`.
Returns the runner calls made, in order, and the escaping exception. -/
def run_job (registered : String → Bool) (beh : RunnerBehavior) (job : Nat × String) :
    List JobEvent × Option JobError :=
  if ¬ registered job.2 then
    ([], some (JobError.unknownJobType job.2))
  else if beh.setupRaises then
    ([JobEvent.runner_setup], some JobError.setupError)
  else if beh.runRaises then
    ([JobEvent.runner_setup, JobEvent.runner_run, JobEvent.runner_cleanup],
      some JobError.runError)
  else
    ([JobEvent.runner_setup, JobEvent.runner_run, JobEvent.runner_cleanup], none)

/-- A job as returned by the gateway's `get_job_claimed_by`: its id and
its job-type key. -/
structure JobRef where
  id : Nat
  job_type : String
deriving DecidableEq, Repr

/-- Result of `ProcessPooler.clean_up_dead_workers`: the pool afterwards,
the ids of the jobs whose runner's `retry` was invoked, in order, and the
message of the `ValueError` that escaped, if one did (in which case the
scan stopped there and the remaining entries were left untouched). -/
structure CleanResult where
  pool : Pool
  retried : List Nat
  fault : Option String
deriving DecidableEq, Repr

/-- `ProcessPooler.clean_up_dead_workers`.  Iterates over a snapshot of
the pool in order; a live entry is kept; a dead entry is deleted, then the
gateway (`claimedBy`) is asked for a job claimed by it; a claim whose
job type is registered gets its runner's `retry` invoked; an unregistered
job type raises `ValueError` out of the loop — the dead entry was already
deleted, everything after it is left as-is. -/
def clean_up_dead_workers (claimedBy : WorkerId → Option JobRef)
    (registered : String → Bool) : Pool → CleanResult
  | [] => ⟨[], [], none⟩
  | (wid, w) :: rest =>
    if w.alive then
      let r := clean_up_dead_workers claimedBy registered rest
      ⟨(wid, w) :: r.pool, r.retried, r.fault⟩
    else
      match claimedBy wid with
      | none => clean_up_dead_workers claimedBy registered rest
      | some job =>
        if registered job.job_type then
          let r := clean_up_dead_workers claimedBy registered rest
          ⟨r.pool, job.id :: r.retried, r.fault⟩
        else
          ⟨rest, [], some ("No runner registered for job type " ++ job.job_type)⟩

/-- The pool bounds from `system_config`. -/
structure PoolConfig where
  min_workers : Nat
  max_workers : Nat
deriving DecidableEq, Repr

/-- `get_queue_status()` as consumed from the job-queue gateway: pending
count, in-progress count, pending ratio. -/
structure QueueStatus where
  pending_count : Nat
  in_progress_count : Nat
  ratio : ℚ
deriving DecidableEq, Repr

/-- `ProcessPooler.spawn_worker`: allocate a fresh id, start the process,
register it in the pool (dict insertion appends).  `fresh` gives the
behaviour of the newly started process. -/
def spawn_worker (fresh : WorkerId → PoolWorker) (pool : Pool) (wid : WorkerId) : Pool :=
  pool ++ [(wid, fresh wid)]

/-- The spawn loop filling the pool up to the minimum: `k` consecutive
`spawn_worker` calls with ids `next_id, next_id+1, ...`. -/
def fill_to_min (fresh : WorkerId → PoolWorker) (next_id : WorkerId) : Nat → Pool → Pool
  | 0, pool => pool
  | Nat.succ k, pool => fill_to_min fresh (next_id + 1) k (spawn_worker fresh pool next_id)

/-- Result of `ProcessPooler.balance_workers`: the pool afterwards, how
many workers the emergency fill spawned, how many the scale-up check
spawned, the ids `stop_worker` was invoked on, and the faults: a
`WorkerShutdownError` escaping that `stop_worker` call, the
`ZeroDivisionError` when the load ratio is computed over an empty pool,
and the `StopIteration` of `next(iter(...))` on an empty pool. -/
structure BalanceResult where
  pool : Pool
  fill_spawned : Nat
  up_spawned : Nat
  stop_calls : List WorkerId
  shutdown_error : Option WorkerId
  div_by_zero : Bool
  iter_fault : Bool
deriving DecidableEq, Repr

/-- The local `total_workers` of `balance_workers` after the emergency
fill to the minimum: the pool size the ratio-based checks compare
against. -/
def filled_size (cfg : PoolConfig) (pool : Pool) : Nat :=
  if pool.length < cfg.min_workers then cfg.min_workers else pool.length

/-- `worker_load_ratio = in_progress_count / total_workers`, with
`total_workers` taken after the emergency fill. -/
def load_ratio (cfg : PoolConfig) (qs : QueueStatus) (pool : Pool) : ℚ :=
  (qs.in_progress_count : ℚ) / (filled_size cfg pool : ℚ)

/-- The scale-up test of `balance_workers`:
`ratio > 0.25 and worker_load_ratio >= 0.8 and total_workers < self.max_workers`. -/
def scale_up_cond (cfg : PoolConfig) (qs : QueueStatus) (pool : Pool) : Prop :=
  (1 : ℚ)/4 < qs.ratio ∧ (4 : ℚ)/5 ≤ load_ratio cfg qs pool ∧
    filled_size cfg pool < cfg.max_workers

instance (cfg : PoolConfig) (qs : QueueStatus) (pool : Pool) :
    Decidable (scale_up_cond cfg qs pool) := by
  unfold scale_up_cond
  infer_instance

/-- The scale-down test of `balance_workers`:
`ratio < 0.01 and worker_load_ratio <= 0.5 and total_workers > self.min_workers`. -/
def scale_down_cond (cfg : PoolConfig) (qs : QueueStatus) (pool : Pool) : Prop :=
  qs.ratio < (1 : ℚ)/100 ∧ load_ratio cfg qs pool ≤ (1 : ℚ)/2 ∧
    cfg.min_workers < filled_size cfg pool

instance (cfg : PoolConfig) (qs : QueueStatus) (pool : Pool) :
    Decidable (scale_down_cond cfg qs pool) := by
  unfold scale_down_cond
  infer_instance

/-- The scale-down action of `balance_workers`:
`worker_to_stop = next(iter(self.workers.keys()))` — the first entry of
the (insertion-ordered) pool — followed by `stop_worker` on it.  On an
empty pool `next` would raise `StopIteration` (recorded as the iteration
fault; unreachable, since scale-down requires the pool above the
minimum). -/
def scale_down_step (pool2 : Pool) (fill_spawned up_spawned : Nat) : BalanceResult :=
  match pool2 with
  | [] => ⟨pool2, fill_spawned, up_spawned, [], none, false, true⟩
  | (wid, _) :: _ =>
    ⟨(stop_worker pool2 wid).pool, fill_spawned, up_spawned, [wid],
      (stop_worker pool2 wid).shutdown_error, false, false⟩

/-- The pool after the emergency-fill loop of `balance_workers`:
unchanged when already at or above the minimum, otherwise extended by
`min_workers - len` freshly spawned workers. -/
def fill_result (cfg : PoolConfig) (fresh : WorkerId → PoolWorker) (next_id : WorkerId)
    (pool : Pool) : Pool :=
  fill_to_min fresh next_id
    (if pool.length < cfg.min_workers then cfg.min_workers - pool.length else 0) pool

/-- The pool after the scale-up check of `balance_workers`: one further
`spawn_worker` on top of the fill when the scale-up condition holds. -/
def pool_after_up (cfg : PoolConfig) (fresh : WorkerId → PoolWorker) (next_id : WorkerId)
    (qs : QueueStatus) (pool : Pool) : Pool :=
  if scale_up_cond cfg qs pool then
    spawn_worker fresh (fill_result cfg fresh next_id pool)
      (next_id + (if pool.length < cfg.min_workers then cfg.min_workers - pool.length else 0))
  else fill_result cfg fresh next_id pool

/-- `ProcessPooler.balance_workers`.  Reads the queue status; if the pool
is below `min_workers`, spawns up to the minimum and sets the local
`total_workers` to the minimum; computes
`worker_load_ratio = in_progress_count / total_workers` (raising
`ZeroDivisionError` when `total_workers` is 0, i.e. empty pool with
`min_workers = 0`); spawns one worker when `ratio > 0.25`,
`worker_load_ratio >= 0.8` and `total_workers < max_workers`; then stops
the first pool entry when `ratio < 0.01`, `worker_load_ratio <= 0.5` and
`total_workers > min_workers`. -/
def balance_workers (cfg : PoolConfig) (fresh : WorkerId → PoolWorker) (next_id : WorkerId)
    (qs : QueueStatus) (pool : Pool) : BalanceResult :=
  let fill_spawned := if pool.length < cfg.min_workers then cfg.min_workers - pool.length else 0
  if filled_size cfg pool = 0 then
    ⟨fill_result cfg fresh next_id pool, fill_spawned, 0, [], none, true, false⟩
  else
    let up_spawned := if scale_up_cond cfg qs pool then 1 else 0
    if scale_down_cond cfg qs pool then
      scale_down_step (pool_after_up cfg fresh next_id qs pool) fill_spawned up_spawned
    else ⟨pool_after_up cfg fresh next_id qs pool, fill_spawned, up_spawned, [], none, false, false⟩

/-- One reconciliation tick of `ProcessPooler.run`'s loop body:
`clean_up_dead_workers()` then `balance_workers()`.  When cleanup raises,
the tick aborts there and `balance_workers` never runs. -/
structure TickResult where
  pool : Pool
  retried : List Nat
  clean_fault : Option String
  fill_spawned : Nat
  up_spawned : Nat
  stop_calls : List WorkerId
  shutdown_error : Option WorkerId
  div_by_zero : Bool
  iter_fault : Bool
deriving DecidableEq, Repr

/-- `clean_up_dead_workers()` followed by `balance_workers()`. -/
def reconciliation_tick (cfg : PoolConfig) (fresh : WorkerId → PoolWorker) (next_id : WorkerId)
    (claimedBy : WorkerId → Option JobRef) (registered : String → Bool)
    (qs : QueueStatus) (pool : Pool) : TickResult :=
  let c := clean_up_dead_workers claimedBy registered pool
  match c.fault with
  | some m => ⟨c.pool, c.retried, some m, 0, 0, [], none, false, false⟩
  | none =>
    let b := balance_workers cfg fresh next_id qs c.pool
    ⟨b.pool, c.retried, none, b.fill_spawned, b.up_spawned, b.stop_calls,
      b.shutdown_error, b.div_by_zero, b.iter_fault⟩

/-- A reconciliation tick completed: no exception escaped any of its
steps. -/
def tick_completed (t : TickResult) : Prop :=
  t.clean_fault = none ∧ t.shutdown_error = none ∧
    t.div_by_zero = false ∧ t.iter_fault = false

instance (t : TickResult) : Decidable (tick_completed t) := by
  unfold tick_completed
  infer_instance

/-- A live, cooperative worker used in concrete scenarios. -/
def live_worker : PoolWorker := ⟨true, true, false, true, []⟩

/-- A dead worker (its process handle reports not-alive). -/
def dead_worker : PoolWorker := ⟨false, true, false, true, []⟩

/-- A live worker that neither acknowledges `stop` nor can be force
killed: `process.kill()` raises. -/
def unkillable_worker : PoolWorker := ⟨true, false, true, false, []⟩

/-- Gateway oracle for the concrete crash-recovery scenarios: worker 1
claims job 10 of type "a", worker 2 claims job 20 of type "b", nobody
else holds a claim. -/
def cex_claims : WorkerId → Option JobRef := fun wid =>
  if wid = 1 then some ⟨10, "a"⟩ else if wid = 2 then some ⟨20, "b"⟩ else none

/-- Registry oracle for the concrete crash-recovery scenarios: only job
type "b" has a registered runner. -/
def cex_registered : String → Bool := fun job_type => job_type == "b"

/-! ### Pool dictionary lemmas -/

theorem pool_lookup_eq_none_of_not_mem (wid : WorkerId) (pool : Pool)
    (h : wid ∉ pool.map Prod.fst) : pool_lookup wid pool = none := by
  induction pool with
  | nil => rfl
  | cons e rest ih =>
    obtain ⟨k, w⟩ := e
    simp only [List.map_cons, List.mem_cons, not_or] at h
    simp [pool_lookup, Ne.symm h.1, ih h.2]

theorem keys_mem_of_mem {wid : WorkerId} {w : PoolWorker} {pool : Pool}
    (h : (wid, w) ∈ pool) : wid ∈ pool.map Prod.fst :=
  List.mem_map.mpr ⟨(wid, w), h, rfl⟩

theorem pool_remove_length {wid : WorkerId} {pool : Pool} {w : PoolWorker}
    (h : pool_lookup wid pool = some w) :
    (pool_remove wid pool).length + 1 = pool.length := by
  induction pool with
  | nil => simp [pool_lookup] at h
  | cons e rest ih =>
    obtain ⟨k, v⟩ := e
    by_cases hk : k = wid
    · simp [pool_remove, hk]
    · simp only [pool_lookup, if_neg hk] at h
      simp [pool_remove, hk, ih h]

theorem pool_lookup_remove_self {wid : WorkerId} {pool : Pool}
    (h : (pool.map Prod.fst).Nodup) :
    pool_lookup wid (pool_remove wid pool) = none := by
  induction pool with
  | nil => rfl
  | cons e rest ih =>
    obtain ⟨k, v⟩ := e
    simp only [List.map_cons, List.nodup_cons] at h
    by_cases hk : k = wid
    · subst hk
      simp only [pool_remove, if_pos rfl]
      exact pool_lookup_eq_none_of_not_mem _ _ h.1
    · simp [pool_remove, hk, pool_lookup, ih h.2]

theorem stop_worker_pool_length {pool : Pool} {wid : WorkerId} {w : PoolWorker}
    (h : pool_lookup wid pool = some w) :
    (stop_worker pool wid).pool.length + 1 = pool.length := by
  unfold stop_worker
  rw [h]
  rcases h1 : w.acksStop <;> rcases h2 : w.killFails <;>
    simp [h1, h2, pool_remove_length h]

theorem fill_to_min_length (fresh : WorkerId → PoolWorker) :
    ∀ (k : Nat) (next_id : WorkerId) (pool : Pool),
      (fill_to_min fresh next_id k pool).length = pool.length + k := by
  intro k
  induction k with
  | zero => intro nid pool; rfl
  | succ k ih =>
    intro nid pool
    simp only [fill_to_min, ih, spawn_worker, List.length_append, List.length_cons,
      List.length_nil]
    omega

theorem fill_result_length (cfg : PoolConfig) (fresh : WorkerId → PoolWorker)
    (next_id : WorkerId) (pool : Pool) :
    (fill_result cfg fresh next_id pool).length = filled_size cfg pool := by
  unfold fill_result filled_size
  split <;> simp only [fill_to_min_length] <;> omega

theorem pool_after_up_length (cfg : PoolConfig) (fresh : WorkerId → PoolWorker)
    (next_id : WorkerId) (qs : QueueStatus) (pool : Pool) :
    (pool_after_up cfg fresh next_id qs pool).length =
      filled_size cfg pool + (if scale_up_cond cfg qs pool then 1 else 0) := by
  unfold pool_after_up
  split
  · simp [spawn_worker, fill_result_length]
  · simp [fill_result_length]

theorem pool_after_up_ne_nil (cfg : PoolConfig) (fresh : WorkerId → PoolWorker)
    (next_id : WorkerId) (qs : QueueStatus) (pool : Pool)
    (h : filled_size cfg pool ≠ 0) :
    pool_after_up cfg fresh next_id qs pool ≠ [] := by
  intro hemp
  have hlen := pool_after_up_length cfg fresh next_id qs pool
  rw [hemp] at hlen
  simp only [List.length_nil] at hlen
  omega

/-! ### C10: absent worker id, status lookup vs stop -/

/-- C10: for a worker identity not in the pool, `get_worker_status`
raises `KeyError` (the bare dict subscript) rather than returning the
`["no response", False]` sentinel, while `stop_worker` with the same
absent identity returns normally and leaves the pool unchanged. -/
theorem C10_absent_worker_lookup (pool : Pool) (wid : WorkerId)
    (h : pool_lookup wid pool = none) :
    get_worker_status pool wid = Except.error () ∧
    get_worker_status pool wid ≠
      Except.ok [PyVal.pstr "no response", PyVal.pbool false] ∧
    stop_worker pool wid = ⟨pool, none⟩ := by
  unfold get_worker_status stop_worker
  rw [h]
  exact ⟨rfl, by simp, rfl⟩

theorem C10_witness :
    get_worker_status [(1, live_worker)] 7 = Except.error () ∧
    get_worker_status [(1, live_worker)] 7 ≠
      Except.ok [PyVal.pstr "no response", PyVal.pbool false] ∧
    stop_worker [(1, live_worker)] 7 = ⟨[(1, live_worker)], none⟩ :=
  C10_absent_worker_lookup [(1, live_worker)] 7 (by decide)

/-! ### C8: the control-channel reply contract -/

/-- C8: for every single message received by `handle_ipc`: a message that
is not a non-empty list or tuple yields `["error", "Invalid message
format"]`; a `"stop"`-tagged message clears the running flag and yields
`["stop", True]`; a `"status"`-tagged message yields `["status", True,
current_job, running]`; any other tag `T` yields `[T, False]`. -/
theorem C8_handle_ipc_replies (running : Bool) (current_job : Option Nat) :
    (handle_ipc running current_job none =
      (running, [PyVal.pstr "error", PyVal.pstr "Invalid message format"])) ∧
    (handle_ipc running current_job (some []) =
      (running, [PyVal.pstr "error", PyVal.pstr "Invalid message format"])) ∧
    (∀ rest, handle_ipc running current_job (some (PyVal.pstr "stop" :: rest)) =
      (false, [PyVal.pstr "stop", PyVal.pbool true])) ∧
    (∀ rest, handle_ipc running current_job (some (PyVal.pstr "status" :: rest)) =
      (running,
        [PyVal.pstr "status", PyVal.pbool true, optJobVal current_job,
          PyVal.pbool running])) ∧
    (∀ x rest, x ≠ PyVal.pstr "stop" → x ≠ PyVal.pstr "status" →
      handle_ipc running current_job (some (x :: rest)) =
        (running, [x, PyVal.pbool false])) := by
  refine ⟨rfl, rfl, fun rest => ?_, fun rest => ?_, fun x rest hx1 hx2 => ?_⟩
  · simp [handle_ipc]
  · simp [handle_ipc]
  · simp only [handle_ipc]
    rw [if_neg hx1, if_neg hx2]

theorem C8_witness :
    handle_ipc true (some 7) (some [PyVal.pstr "query"]) =
      (true, [PyVal.pstr "query", PyVal.pbool false]) :=
  (C8_handle_ipc_replies true (some 7)).2.2.2.2 (PyVal.pstr "query") [] (by decide) (by decide)

/-! ### C9: run_job lifecycle -/

/-- C9: `run_job` raises the unknown-job-type `ValueError` and calls no
runner operation when the job's type key has no registered runner;
otherwise it calls `setup` then `run`, and `cleanup` executes whenever
`run` is entered, regardless of whether `run` raises. -/
theorem C9_run_job_lifecycle (registered : String → Bool) (beh : RunnerBehavior)
    (job : Nat × String) :
    (registered job.2 = false →
      run_job registered beh job = ([], some (JobError.unknownJobType job.2))) ∧
    (registered job.2 = true → beh.setupRaises = false →
      run_job registered beh job =
        ([JobEvent.runner_setup, JobEvent.runner_run, JobEvent.runner_cleanup],
          if beh.runRaises then some JobError.runError else none)) ∧
    (JobEvent.runner_run ∈ (run_job registered beh job).1 →
      JobEvent.runner_cleanup ∈ (run_job registered beh job).1) := by
  unfold run_job
  refine ⟨fun h => ?_, fun h hs => ?_, fun h => ?_⟩
  · simp [h]
  · rcases hr : beh.runRaises <;> simp [h, hs, hr]
  · by_cases h1 : registered job.2 <;> by_cases h2 : beh.setupRaises = true <;>
      by_cases h3 : beh.runRaises = true <;> simp_all

theorem C9_witness :
    run_job (fun t => t == "fmt") ⟨false, true⟩ (1, "zzz") =
        ([], some (JobError.unknownJobType "zzz")) ∧
    run_job (fun t => t == "fmt") ⟨false, true⟩ (2, "fmt") =
        ([JobEvent.runner_setup, JobEvent.runner_run, JobEvent.runner_cleanup],
          some JobError.runError) :=
  ⟨(C9_run_job_lifecycle (fun t => t == "fmt") ⟨false, true⟩ (1, "zzz")).1 (by decide),
    (C9_run_job_lifecycle (fun t => t == "fmt") ⟨false, true⟩ (2, "fmt")).2.1
      (by decide) (by decide)⟩

/-! ### C6: stop_worker shutdown outcomes -/

/-- C6 (counterexample): a worker that neither acknowledges `stop` nor
can be killed makes `stop_worker` raise `WorkerShutdownError` naming it,
but the `finally` block still deletes it from the pool — it does not
remain. -/
theorem C6_counterexample :
    (stop_worker [(5, unkillable_worker)] 5).shutdown_error = some 5 ∧
    pool_lookup 5 (stop_worker [(5, unkillable_worker)] 5).pool = none := by decide

/-- C6 (amended): for every worker present in the pool, `stop_worker`
removes it from the pool in every outcome — including the failed-kill
one, where the `finally` block deletes it before `WorkerShutdownError`
propagates — and raises the shutdown error, naming that worker, exactly
when the worker neither acknowledges the stop nor can be killed. -/
theorem C6_stop_worker_always_removes (pool : Pool) (wid : WorkerId) (w : PoolWorker)
    (hnd : (pool.map Prod.fst).Nodup) (h : pool_lookup wid pool = some w) :
    pool_lookup wid (stop_worker pool wid).pool = none ∧
    ((stop_worker pool wid).shutdown_error = some wid ↔
      (w.acksStop = false ∧ w.killFails = true)) := by
  unfold stop_worker
  rw [h]
  rcases h1 : w.acksStop <;> rcases h2 : w.killFails <;>
    simp [h1, h2, pool_lookup_remove_self hnd]

theorem C6_witness :
    pool_lookup 6 (stop_worker [(6, unkillable_worker)] 6).pool = none ∧
    ((stop_worker [(6, unkillable_worker)] 6).shutdown_error = some 6 ↔
      (unkillable_worker.acksStop = false ∧ unkillable_worker.killFails = true)) :=
  C6_stop_worker_always_removes [(6, unkillable_worker)] 6 unkillable_worker
    (by decide) (by decide)

/-! ### Branch lemmas for balance_workers -/

theorem scale_down_step_spec (pool2 : Pool) (f u : Nat) (h : pool2 ≠ []) :
    (scale_down_step pool2 f u).stop_calls.length = 1 ∧
    (scale_down_step pool2 f u).pool.length + 1 = pool2.length ∧
    (scale_down_step pool2 f u).fill_spawned = f ∧
    (scale_down_step pool2 f u).up_spawned = u ∧
    (scale_down_step pool2 f u).div_by_zero = false := by
  match pool2 with
  | [] => exact absurd rfl h
  | (wid, w) :: rest =>
    have hl : pool_lookup wid ((wid, w) :: rest) = some w := by
      simp [pool_lookup]
    refine ⟨rfl, ?_, rfl, rfl, rfl⟩
    exact stop_worker_pool_length hl

theorem scale_down_step_fill (pool2 : Pool) (f u : Nat) :
    (scale_down_step pool2 f u).fill_spawned = f := by
  match pool2 with
  | [] => rfl
  | (wid, w) :: rest => rfl

theorem scale_down_step_up (pool2 : Pool) (f u : Nat) :
    (scale_down_step pool2 f u).up_spawned = u := by
  match pool2 with
  | [] => rfl
  | (wid, w) :: rest => rfl

theorem balance_fill_spawned (cfg : PoolConfig) (fresh : WorkerId → PoolWorker)
    (next_id : WorkerId) (qs : QueueStatus) (pool : Pool) :
    (balance_workers cfg fresh next_id qs pool).fill_spawned =
      if pool.length < cfg.min_workers then cfg.min_workers - pool.length else 0 := by
  unfold balance_workers
  dsimp only
  split
  · rfl
  · split
    · rw [scale_down_step_fill]
    · rfl

theorem balance_up_spawned (cfg : PoolConfig) (fresh : WorkerId → PoolWorker)
    (next_id : WorkerId) (qs : QueueStatus) (pool : Pool)
    (h : filled_size cfg pool ≠ 0) :
    (balance_workers cfg fresh next_id qs pool).up_spawned =
      if scale_up_cond cfg qs pool then 1 else 0 := by
  unfold balance_workers
  rw [if_neg h]
  dsimp only
  split
  · rw [scale_down_step_up]
  · rfl

theorem balance_stop_calls_length (cfg : PoolConfig) (fresh : WorkerId → PoolWorker)
    (next_id : WorkerId) (qs : QueueStatus) (pool : Pool)
    (h : filled_size cfg pool ≠ 0) :
    (balance_workers cfg fresh next_id qs pool).stop_calls.length =
      if scale_down_cond cfg qs pool then 1 else 0 := by
  unfold balance_workers
  rw [if_neg h]
  dsimp only
  by_cases hdown : scale_down_cond cfg qs pool
  · rw [if_pos hdown, if_pos hdown]
    exact (scale_down_step_spec _ _ _ (pool_after_up_ne_nil cfg fresh next_id qs pool h)).1
  · rw [if_neg hdown, if_neg hdown]
    rfl

theorem balance_pool_length (cfg : PoolConfig) (fresh : WorkerId → PoolWorker)
    (next_id : WorkerId) (qs : QueueStatus) (pool : Pool)
    (h : filled_size cfg pool ≠ 0) :
    (balance_workers cfg fresh next_id qs pool).pool.length +
        (balance_workers cfg fresh next_id qs pool).stop_calls.length =
      filled_size cfg pool + (balance_workers cfg fresh next_id qs pool).up_spawned := by
  rw [balance_up_spawned cfg fresh next_id qs pool h,
    balance_stop_calls_length cfg fresh next_id qs pool h]
  unfold balance_workers
  rw [if_neg h]
  dsimp only
  by_cases hdown : scale_down_cond cfg qs pool
  · rw [if_pos hdown, if_pos hdown]
    have hspec := scale_down_step_spec (pool_after_up cfg fresh next_id qs pool)
      (if pool.length < cfg.min_workers then cfg.min_workers - pool.length else 0)
      (if scale_up_cond cfg qs pool then 1 else 0)
      (pool_after_up_ne_nil cfg fresh next_id qs pool h)
    have hlen := pool_after_up_length cfg fresh next_id qs pool
    omega
  · rw [if_neg hdown, if_neg hdown]
    have hlen := pool_after_up_length cfg fresh next_id qs pool
    simp only [List.length_nil]
    omega

/-! ### C5: emergency fill to the minimum -/

/-- C5 (counterexample): with pool size 1 and minimum 3, `balance_workers`
spawns two workers — the fill loop runs `min_workers - total_workers`
times — not three; the pool reaches size 3. -/
theorem C5_counterexample :
    (balance_workers ⟨3, 5⟩ (fun _ => live_worker) 10 ⟨0, 0, 0⟩
        [(0, live_worker)]).fill_spawned +
      (balance_workers ⟨3, 5⟩ (fun _ => live_worker) 10 ⟨0, 0, 0⟩
        [(0, live_worker)]).up_spawned = 2 ∧
    (balance_workers ⟨3, 5⟩ (fun _ => live_worker) 10 ⟨0, 0, 0⟩
        [(0, live_worker)]).pool.length = 3 := by
  have hf : filled_size ⟨3, 5⟩ ([(0, live_worker)] : Pool) = 3 := by decide
  have h0 : filled_size ⟨3, 5⟩ ([(0, live_worker)] : Pool) ≠ 0 := by decide
  have hup : ¬ scale_up_cond ⟨3, 5⟩ ⟨0, 0, 0⟩ [(0, live_worker)] := by
    unfold scale_up_cond
    dsimp only
    norm_num
  have hdown : ¬ scale_down_cond ⟨3, 5⟩ ⟨0, 0, 0⟩ [(0, live_worker)] := by
    unfold scale_down_cond
    rw [hf]
    dsimp only
    norm_num
  have h1 := balance_fill_spawned ⟨3, 5⟩ (fun _ => live_worker) 10 ⟨0, 0, 0⟩ [(0, live_worker)]
  have h2 := balance_up_spawned ⟨3, 5⟩ (fun _ => live_worker) 10 ⟨0, 0, 0⟩
    [(0, live_worker)] h0
  have h3 := balance_stop_calls_length ⟨3, 5⟩ (fun _ => live_worker) 10 ⟨0, 0, 0⟩
    [(0, live_worker)] h0
  have h4 := balance_pool_length ⟨3, 5⟩ (fun _ => live_worker) 10 ⟨0, 0, 0⟩
    [(0, live_worker)] h0
  rw [if_pos (by decide : ([(0, live_worker)] : Pool).length < (3 : Nat))] at h1
  rw [if_neg hup] at h2
  rw [if_neg hdown] at h3
  rw [hf, h2, h3] at h4
  refine ⟨by rw [h1, h2]; decide, ?_⟩
  omega

/-- C5 (amended): whenever the pool is below the configured minimum,
`balance_workers` spawns workers up to the minimum before the ratio-based
checks and regardless of the queue status; in particular with size 1 and
minimum 3 the fill spawns exactly two workers, bringing the pool to the
minimum of three. -/
theorem C5_fill_to_min_first (cfg : PoolConfig) (fresh : WorkerId → PoolWorker)
    (next_id : WorkerId) (qs : QueueStatus) (pool : Pool)
    (h : pool.length < cfg.min_workers) :
    (balance_workers cfg fresh next_id qs pool).fill_spawned =
        cfg.min_workers - pool.length ∧
    (pool.length = 1 → cfg.min_workers = 3 →
      (balance_workers cfg fresh next_id qs pool).fill_spawned = 2) := by
  have hfill := balance_fill_spawned cfg fresh next_id qs pool
  rw [if_pos h] at hfill
  exact ⟨hfill, fun h1 h3 => by rw [hfill, h1, h3]⟩

theorem C5_witness :
    ([(0, live_worker)] : Pool).length < (PoolConfig.mk 3 5).min_workers ∧
    ((balance_workers ⟨3, 5⟩ (fun _ => live_worker) 10 ⟨2, 1, (1 : ℚ)/3⟩
          [(0, live_worker)]).fill_spawned =
        (PoolConfig.mk 3 5).min_workers - ([(0, live_worker)] : Pool).length ∧
      (([(0, live_worker)] : Pool).length = 1 → (PoolConfig.mk 3 5).min_workers = 3 →
        (balance_workers ⟨3, 5⟩ (fun _ => live_worker) 10 ⟨2, 1, (1 : ℚ)/3⟩
            [(0, live_worker)]).fill_spawned = 2)) :=
  ⟨by decide,
    C5_fill_to_min_first ⟨3, 5⟩ (fun _ => live_worker) 10 ⟨2, 1, (1 : ℚ)/3⟩
      [(0, live_worker)] (by decide)⟩

/-! ### C3: the scale-up rule -/

/-- C3: `balance_workers` spawns exactly one worker beyond any emergency
fill iff the pending ratio is above 0.25, the load ratio (in-progress
over the post-fill size) is at least 0.8, and the post-fill size is
strictly below the maximum; the net pool length accounts for that one
spawn (and the one stop, when the scale-down rule also acted). -/
theorem C3_scale_up_iff (cfg : PoolConfig) (fresh : WorkerId → PoolWorker)
    (next_id : WorkerId) (qs : QueueStatus) (pool : Pool)
    (h : 0 < filled_size cfg pool) :
    ((balance_workers cfg fresh next_id qs pool).up_spawned = 1 ↔
      ((1 : ℚ)/4 < qs.ratio ∧ (4 : ℚ)/5 ≤ load_ratio cfg qs pool ∧
        filled_size cfg pool < cfg.max_workers)) ∧
    (balance_workers cfg fresh next_id qs pool).pool.length +
        (balance_workers cfg fresh next_id qs pool).stop_calls.length =
      filled_size cfg pool + (balance_workers cfg fresh next_id qs pool).up_spawned := by
  have h0 : filled_size cfg pool ≠ 0 := Nat.pos_iff_ne_zero.mp h
  constructor
  · rw [balance_up_spawned cfg fresh next_id qs pool h0]
    show (if scale_up_cond cfg qs pool then 1 else 0) = 1 ↔ scale_up_cond cfg qs pool
    by_cases hc : scale_up_cond cfg qs pool <;> simp [hc]
  · exact balance_pool_length cfg fresh next_id qs pool h0

theorem C3_witness :
    0 < filled_size ⟨1, 6⟩ [(0, live_worker), (1, live_worker), (2, live_worker),
        (3, live_worker), (4, live_worker)] ∧
    (((balance_workers ⟨1, 6⟩ (fun _ => live_worker) 10 ⟨6, 4, (3 : ℚ)/10⟩
          [(0, live_worker), (1, live_worker), (2, live_worker),
            (3, live_worker), (4, live_worker)]).up_spawned = 1 ↔
        ((1 : ℚ)/4 < (QueueStatus.mk 6 4 ((3 : ℚ)/10)).ratio ∧
          (4 : ℚ)/5 ≤ load_ratio ⟨1, 6⟩ ⟨6, 4, (3 : ℚ)/10⟩
            [(0, live_worker), (1, live_worker), (2, live_worker),
              (3, live_worker), (4, live_worker)] ∧
          filled_size ⟨1, 6⟩ [(0, live_worker), (1, live_worker), (2, live_worker),
            (3, live_worker), (4, live_worker)] < (PoolConfig.mk 1 6).max_workers)) ∧
      (balance_workers ⟨1, 6⟩ (fun _ => live_worker) 10 ⟨6, 4, (3 : ℚ)/10⟩
          [(0, live_worker), (1, live_worker), (2, live_worker),
            (3, live_worker), (4, live_worker)]).pool.length +
          (balance_workers ⟨1, 6⟩ (fun _ => live_worker) 10 ⟨6, 4, (3 : ℚ)/10⟩
            [(0, live_worker), (1, live_worker), (2, live_worker),
              (3, live_worker), (4, live_worker)]).stop_calls.length =
        filled_size ⟨1, 6⟩ [(0, live_worker), (1, live_worker), (2, live_worker),
            (3, live_worker), (4, live_worker)] +
          (balance_workers ⟨1, 6⟩ (fun _ => live_worker) 10 ⟨6, 4, (3 : ℚ)/10⟩
            [(0, live_worker), (1, live_worker), (2, live_worker),
              (3, live_worker), (4, live_worker)]).up_spawned) :=
  ⟨by decide,
    C3_scale_up_iff ⟨1, 6⟩ (fun _ => live_worker) 10 ⟨6, 4, (3 : ℚ)/10⟩
      [(0, live_worker), (1, live_worker), (2, live_worker),
        (3, live_worker), (4, live_worker)] (by decide)⟩

/-! ### C4: the scale-down rule -/

/-- C4: `balance_workers` stops exactly one worker iff the pending ratio
is strictly below 0.01, the load ratio is at most 0.5, and the post-fill
size is strictly above the minimum; and when it does, the pool really
shrinks by one relative to the post-fill size plus any scale-up spawn. -/
theorem C4_scale_down_iff (cfg : PoolConfig) (fresh : WorkerId → PoolWorker)
    (next_id : WorkerId) (qs : QueueStatus) (pool : Pool)
    (h : 0 < filled_size cfg pool) :
    ((balance_workers cfg fresh next_id qs pool).stop_calls.length = 1 ↔
      (qs.ratio < (1 : ℚ)/100 ∧ load_ratio cfg qs pool ≤ (1 : ℚ)/2 ∧
        cfg.min_workers < filled_size cfg pool)) ∧
    ((qs.ratio < (1 : ℚ)/100 ∧ load_ratio cfg qs pool ≤ (1 : ℚ)/2 ∧
        cfg.min_workers < filled_size cfg pool) →
      (balance_workers cfg fresh next_id qs pool).pool.length + 1 =
        filled_size cfg pool + (balance_workers cfg fresh next_id qs pool).up_spawned) := by
  have h0 : filled_size cfg pool ≠ 0 := Nat.pos_iff_ne_zero.mp h
  have hstop : (balance_workers cfg fresh next_id qs pool).stop_calls.length =
      if scale_down_cond cfg qs pool then 1 else 0 :=
    balance_stop_calls_length cfg fresh next_id qs pool h0
  have hlen := balance_pool_length cfg fresh next_id qs pool h0
  constructor
  · rw [hstop]
    show (if scale_down_cond cfg qs pool then 1 else 0) = 1 ↔ scale_down_cond cfg qs pool
    by_cases hc : scale_down_cond cfg qs pool <;> simp [hc]
  · intro hc
    have hc' : scale_down_cond cfg qs pool := hc
    rw [hstop, if_pos hc'] at hlen
    exact hlen

theorem C4_witness :
    0 < filled_size ⟨2, 6⟩ [(0, live_worker), (1, live_worker), (2, live_worker),
        (3, live_worker)] ∧
    (((balance_workers ⟨2, 6⟩ (fun _ => live_worker) 10 ⟨0, 2, (5 : ℚ)/1000⟩
          [(0, live_worker), (1, live_worker), (2, live_worker),
            (3, live_worker)]).stop_calls.length = 1 ↔
        ((QueueStatus.mk 0 2 ((5 : ℚ)/1000)).ratio < (1 : ℚ)/100 ∧
          load_ratio ⟨2, 6⟩ ⟨0, 2, (5 : ℚ)/1000⟩
            [(0, live_worker), (1, live_worker), (2, live_worker),
              (3, live_worker)] ≤ (1 : ℚ)/2 ∧
          (PoolConfig.mk 2 6).min_workers < filled_size ⟨2, 6⟩
            [(0, live_worker), (1, live_worker), (2, live_worker),
              (3, live_worker)])) ∧
      (((QueueStatus.mk 0 2 ((5 : ℚ)/1000)).ratio < (1 : ℚ)/100 ∧
          load_ratio ⟨2, 6⟩ ⟨0, 2, (5 : ℚ)/1000⟩
            [(0, live_worker), (1, live_worker), (2, live_worker),
              (3, live_worker)] ≤ (1 : ℚ)/2 ∧
          (PoolConfig.mk 2 6).min_workers < filled_size ⟨2, 6⟩
            [(0, live_worker), (1, live_worker), (2, live_worker),
              (3, live_worker)]) →
        (balance_workers ⟨2, 6⟩ (fun _ => live_worker) 10 ⟨0, 2, (5 : ℚ)/1000⟩
            [(0, live_worker), (1, live_worker), (2, live_worker),
              (3, live_worker)]).pool.length + 1 =
          filled_size ⟨2, 6⟩ [(0, live_worker), (1, live_worker), (2, live_worker),
              (3, live_worker)] +
            (balance_workers ⟨2, 6⟩ (fun _ => live_worker) 10 ⟨0, 2, (5 : ℚ)/1000⟩
              [(0, live_worker), (1, live_worker), (2, live_worker),
                (3, live_worker)]).up_spawned)) :=
  ⟨by decide,
    C4_scale_down_iff ⟨2, 6⟩ (fun _ => live_worker) 10 ⟨0, 2, (5 : ℚ)/1000⟩
      [(0, live_worker), (1, live_worker), (2, live_worker), (3, live_worker)]
      (by decide)⟩


/-! ### Step equations for clean_up_dead_workers -/

theorem clean_up_cons_alive (claimedBy : WorkerId → Option JobRef)
    (registered : String → Bool) (wid : WorkerId) (w : PoolWorker) (rest : Pool)
    (ha : w.alive = true) :
    clean_up_dead_workers claimedBy registered ((wid, w) :: rest) =
      ⟨(wid, w) :: (clean_up_dead_workers claimedBy registered rest).pool,
        (clean_up_dead_workers claimedBy registered rest).retried,
        (clean_up_dead_workers claimedBy registered rest).fault⟩ := by
  simp [clean_up_dead_workers, ha]

theorem clean_up_cons_dead_none (claimedBy : WorkerId → Option JobRef)
    (registered : String → Bool) (wid : WorkerId) (w : PoolWorker) (rest : Pool)
    (ha : w.alive = false) (hc : claimedBy wid = none) :
    clean_up_dead_workers claimedBy registered ((wid, w) :: rest) =
      clean_up_dead_workers claimedBy registered rest := by
  simp [clean_up_dead_workers, ha, hc]

theorem clean_up_cons_dead_reg (claimedBy : WorkerId → Option JobRef)
    (registered : String → Bool) (wid : WorkerId) (w : PoolWorker) (rest : Pool)
    (job : JobRef) (ha : w.alive = false) (hc : claimedBy wid = some job)
    (hr : registered job.job_type = true) :
    clean_up_dead_workers claimedBy registered ((wid, w) :: rest) =
      ⟨(clean_up_dead_workers claimedBy registered rest).pool,
        job.id :: (clean_up_dead_workers claimedBy registered rest).retried,
        (clean_up_dead_workers claimedBy registered rest).fault⟩ := by
  simp [clean_up_dead_workers, ha, hc, hr]

theorem clean_up_cons_dead_unreg (claimedBy : WorkerId → Option JobRef)
    (registered : String → Bool) (wid : WorkerId) (w : PoolWorker) (rest : Pool)
    (job : JobRef) (ha : w.alive = false) (hc : claimedBy wid = some job)
    (hr : registered job.job_type = false) :
    clean_up_dead_workers claimedBy registered ((wid, w) :: rest) =
      ⟨rest, [], some ("No runner registered for job type " ++ job.job_type)⟩ := by
  simp [clean_up_dead_workers, ha, hc, hr]

/-! ### Structural lemmas about clean_up_dead_workers -/

theorem clean_up_pool_subset (claimedBy : WorkerId → Option JobRef)
    (registered : String → Bool) :
    ∀ (pool : Pool) (e : WorkerId × PoolWorker),
      e ∈ (clean_up_dead_workers claimedBy registered pool).pool → e ∈ pool := by
  intro pool
  induction pool with
  | nil =>
    intro e he
    simp [clean_up_dead_workers] at he
  | cons p rest ih =>
    obtain ⟨k, v⟩ := p
    intro e he
    by_cases ha : v.alive = true
    · rw [clean_up_cons_alive claimedBy registered k v rest ha] at he
      rcases List.mem_cons.mp he with he | he
      · exact he ▸ List.mem_cons_self _ _
      · exact List.mem_cons_of_mem _ (ih e he)
    · have ha' : v.alive = false := Bool.not_eq_true v.alive ▸ ha
      rcases hc : claimedBy k with _ | job
      · rw [clean_up_cons_dead_none claimedBy registered k v rest ha' hc] at he
        exact List.mem_cons_of_mem _ (ih e he)
      · by_cases hr : registered job.job_type = true
        · rw [clean_up_cons_dead_reg claimedBy registered k v rest job ha' hc hr] at he
          exact List.mem_cons_of_mem _ (ih e he)
        · have hr' : registered job.job_type = false := Bool.not_eq_true _ ▸ hr
          rw [clean_up_cons_dead_unreg claimedBy registered k v rest job ha' hc hr'] at he
          exact List.mem_cons_of_mem _ he

theorem clean_up_retried_source (claimedBy : WorkerId → Option JobRef)
    (registered : String → Bool) :
    ∀ (pool : Pool) (j : Nat),
      j ∈ (clean_up_dead_workers claimedBy registered pool).retried →
      ∃ (wid2 : WorkerId) (w2 : PoolWorker) (job2 : JobRef),
        (wid2, w2) ∈ pool ∧ w2.alive = false ∧ claimedBy wid2 = some job2 ∧
          job2.id = j := by
  intro pool
  induction pool with
  | nil =>
    intro j hj
    simp [clean_up_dead_workers] at hj
  | cons p rest ih =>
    obtain ⟨k, v⟩ := p
    intro j hj
    by_cases ha : v.alive = true
    · rw [clean_up_cons_alive claimedBy registered k v rest ha] at hj
      obtain ⟨w2, x2, j2, hm, hrest⟩ := ih j hj
      exact ⟨w2, x2, j2, List.mem_cons_of_mem _ hm, hrest⟩
    · have ha' : v.alive = false := Bool.not_eq_true v.alive ▸ ha
      rcases hc : claimedBy k with _ | job
      · rw [clean_up_cons_dead_none claimedBy registered k v rest ha' hc] at hj
        obtain ⟨w2, x2, j2, hm, hrest⟩ := ih j hj
        exact ⟨w2, x2, j2, List.mem_cons_of_mem _ hm, hrest⟩
      · by_cases hr : registered job.job_type = true
        · rw [clean_up_cons_dead_reg claimedBy registered k v rest job ha' hc hr] at hj
          rcases List.mem_cons.mp hj with hj | hj
          · exact ⟨k, v, job, List.mem_cons_self _ _, ha', hc, hj.symm⟩
          · obtain ⟨w2, x2, j2, hm, hrest⟩ := ih j hj
            exact ⟨w2, x2, j2, List.mem_cons_of_mem _ hm, hrest⟩
        · have hr' : registered job.job_type = false := Bool.not_eq_true _ ▸ hr
          rw [clean_up_cons_dead_unreg claimedBy registered k v rest job ha' hc hr'] at hj
          simp at hj

theorem clean_up_pool_length_le (claimedBy : WorkerId → Option JobRef)
    (registered : String → Bool) :
    ∀ pool : Pool,
      (clean_up_dead_workers claimedBy registered pool).pool.length ≤ pool.length := by
  intro pool
  induction pool with
  | nil => simp [clean_up_dead_workers]
  | cons p rest ih =>
    obtain ⟨k, v⟩ := p
    by_cases ha : v.alive = true
    · rw [clean_up_cons_alive claimedBy registered k v rest ha]
      simpa using ih
    · have ha' : v.alive = false := Bool.not_eq_true v.alive ▸ ha
      rcases hc : claimedBy k with _ | job
      · rw [clean_up_cons_dead_none claimedBy registered k v rest ha' hc]
        exact Nat.le_succ_of_le ih
      · by_cases hr : registered job.job_type = true
        · rw [clean_up_cons_dead_reg claimedBy registered k v rest job ha' hc hr]
          exact Nat.le_succ_of_le ih
        · have hr' : registered job.job_type = false := Bool.not_eq_true _ ▸ hr
          rw [clean_up_cons_dead_unreg claimedBy registered k v rest job ha' hc hr']
          simp

theorem clean_up_append (claimedBy : WorkerId → Option JobRef)
    (registered : String → Bool) :
    ∀ (pre rest : Pool),
      (clean_up_dead_workers claimedBy registered pre).fault = none →
      clean_up_dead_workers claimedBy registered (pre ++ rest) =
        ⟨(clean_up_dead_workers claimedBy registered pre).pool ++
            (clean_up_dead_workers claimedBy registered rest).pool,
          (clean_up_dead_workers claimedBy registered pre).retried ++
            (clean_up_dead_workers claimedBy registered rest).retried,
          (clean_up_dead_workers claimedBy registered rest).fault⟩ := by
  intro pre
  induction pre with
  | nil =>
    intro rest h
    simp [clean_up_dead_workers]
  | cons p pre ih =>
    obtain ⟨k, v⟩ := p
    intro rest h
    rw [List.cons_append]
    by_cases ha : v.alive = true
    · rw [clean_up_cons_alive claimedBy registered k v pre ha] at h
      rw [clean_up_cons_alive claimedBy registered k v pre ha,
        clean_up_cons_alive claimedBy registered k v (pre ++ rest) ha, ih rest h]
      simp
    · have ha' : v.alive = false := Bool.not_eq_true v.alive ▸ ha
      rcases hc : claimedBy k with _ | job
      · rw [clean_up_cons_dead_none claimedBy registered k v pre ha' hc] at h
        rw [clean_up_cons_dead_none claimedBy registered k v pre ha' hc,
          clean_up_cons_dead_none claimedBy registered k v (pre ++ rest) ha' hc,
          ih rest h]
      · by_cases hr : registered job.job_type = true
        · rw [clean_up_cons_dead_reg claimedBy registered k v pre job ha' hc hr] at h
          rw [clean_up_cons_dead_reg claimedBy registered k v pre job ha' hc hr,
            clean_up_cons_dead_reg claimedBy registered k v (pre ++ rest) job ha' hc hr,
            ih rest h]
          simp
        · have hr' : registered job.job_type = false := Bool.not_eq_true _ ▸ hr
          rw [clean_up_cons_dead_unreg claimedBy registered k v pre job ha' hc hr'] at h
          cases h

/-! ### C1: crash recovery retries the orphaned claim -/

/-- C1 (counterexample): dead worker 2 holds claimed job 20 whose type
"b" has a registered runner — yet one call to `clean_up_dead_workers`
neither removes worker 2 from the pool nor retries job 20, because the
scan first hits dead worker 1, whose claimed job type "a" has no runner,
and that `ValueError` aborts the loop. -/
theorem C1_counterexample :
    dead_worker.alive = false ∧
    cex_claims 2 = some ⟨20, "b"⟩ ∧
    cex_registered "b" = true ∧
    pool_lookup 2 (clean_up_dead_workers cex_claims cex_registered
        [(1, dead_worker), (2, dead_worker)]).pool = some dead_worker ∧
    (clean_up_dead_workers cex_claims cex_registered
        [(1, dead_worker), (2, dead_worker)]).retried = [] := by
  decide

/-- C1 (amended): provided `clean_up_dead_workers` completes without
fault (no dead worker's orphaned claim has an unregistered job type),
every dead worker whose claimed job's type has a registered runner is
removed from the pool and that job's runner `retry` is invoked exactly
once — given distinct pool keys and the gateway's at-most-one-claim
invariant for that job. -/
theorem C1_cleanup_retries_orphans (claimedBy : WorkerId → Option JobRef)
    (registered : String → Bool) (pool : Pool) (wid : WorkerId) (w : PoolWorker)
    (job : JobRef)
    (hmem : (wid, w) ∈ pool)
    (hdead : w.alive = false)
    (hclaim : claimedBy wid = some job)
    (hreg : registered job.job_type = true)
    (hnodup : (pool.map Prod.fst).Nodup)
    (hunique : ∀ wid2 w2, (wid2, w2) ∈ pool → wid2 ≠ wid →
      ∀ job2, claimedBy wid2 = some job2 → job2.id ≠ job.id)
    (hok : (clean_up_dead_workers claimedBy registered pool).fault = none) :
    pool_lookup wid (clean_up_dead_workers claimedBy registered pool).pool = none ∧
    (clean_up_dead_workers claimedBy registered pool).retried.count job.id = 1 := by
  induction pool with
  | nil => simp at hmem
  | cons p rest ih =>
    obtain ⟨k, v⟩ := p
    simp only [List.map_cons, List.nodup_cons] at hnodup
    have hunique2 : ∀ wid2 w2, (wid2, w2) ∈ rest → wid2 ≠ wid →
        ∀ job2, claimedBy wid2 = some job2 → job2.id ≠ job.id :=
      fun wid2 w2 hm => hunique wid2 w2 (List.mem_cons_of_mem _ hm)
    rcases List.mem_cons.mp hmem with hhead | htail
    · -- the worker in question is the head entry
      cases hhead
      rw [clean_up_cons_dead_reg claimedBy registered wid w rest job hdead
        hclaim hreg] at hok ⊢
      constructor
      · apply pool_lookup_eq_none_of_not_mem
        intro hmem2
        obtain ⟨⟨a, b⟩, hab, hfst⟩ := List.mem_map.mp hmem2
        cases hfst
        exact hnodup.1 (keys_mem_of_mem
          (clean_up_pool_subset claimedBy registered rest _ hab))
      · have hzero : (clean_up_dead_workers claimedBy registered rest).retried.count
            job.id = 0 := by
          rw [List.count_eq_zero]
          intro hj
          obtain ⟨wid2, w2, job2, hm, _, hcl, hid⟩ :=
            clean_up_retried_source claimedBy registered rest job.id hj
          have hne : wid2 ≠ wid := by
            intro he
            subst he
            exact hnodup.1 (keys_mem_of_mem hm)
          exact hunique wid2 w2 (List.mem_cons_of_mem _ hm) hne job2 hcl hid
        simp [List.count_cons, hzero]
    · -- the worker in question lies in the tail
      have hwid_tail : wid ∈ rest.map Prod.fst := keys_mem_of_mem htail
      have hkne : k ≠ wid := fun he => hnodup.1 (he ▸ hwid_tail)
      by_cases ha : v.alive = true
      · rw [clean_up_cons_alive claimedBy registered k v rest ha] at hok ⊢
        obtain ⟨ihl, ihc⟩ := ih htail hnodup.2 hunique2 hok
        refine ⟨?_, ihc⟩
        simp only [pool_lookup, if_neg hkne]
        exact ihl
      · have ha' : v.alive = false := Bool.not_eq_true v.alive ▸ ha
        rcases hc : claimedBy k with _ | jobk
        · rw [clean_up_cons_dead_none claimedBy registered k v rest ha' hc] at hok ⊢
          exact ih htail hnodup.2 hunique2 hok
        · by_cases hr : registered jobk.job_type = true
          · rw [clean_up_cons_dead_reg claimedBy registered k v rest jobk ha'
              hc hr] at hok ⊢
            obtain ⟨ihl, ihc⟩ := ih htail hnodup.2 hunique2 hok
            have hne : jobk.id ≠ job.id :=
              hunique k v (List.mem_cons_self _ _) hkne jobk hc
            refine ⟨ihl, ?_⟩
            simp [List.count_cons, hne, ihc]
          · have hr' : registered jobk.job_type = false := Bool.not_eq_true _ ▸ hr
            rw [clean_up_cons_dead_unreg claimedBy registered k v rest jobk ha'
              hc hr'] at hok
            cases hok

theorem C1_witness :
    ((2 : WorkerId), dead_worker) ∈ ([(2, dead_worker), (7, live_worker)] : Pool) ∧
    (pool_lookup 2 (clean_up_dead_workers cex_claims cex_registered
        [(2, dead_worker), (7, live_worker)]).pool = none ∧
      (clean_up_dead_workers cex_claims cex_registered
        [(2, dead_worker), (7, live_worker)]).retried.count 20 = 1) :=
  ⟨by decide,
    C1_cleanup_retries_orphans cex_claims cex_registered
      [(2, dead_worker), (7, live_worker)] 2 dead_worker ⟨20, "b"⟩
      (by decide) (by decide) (by decide) (by decide) (by decide)
      (by
        intro wid2 w2 hmem2 hne job2 hclaim2
        simp only [List.mem_cons, List.not_mem_nil, or_false] at hmem2
        rcases hmem2 with h2 | h7
        · exact absurd (congrArg Prod.fst h2) hne
        · have : wid2 = 7 := congrArg Prod.fst h7
          subst this
          simp [cex_claims] at hclaim2)
      (by decide)⟩

/-! ### C7: a fault in one worker's recovery aborts the scan -/

/-- C7 (counterexample): with three dead workers where the first one's
orphaned claim has an unregistered job type, `clean_up_dead_workers`
raises, leaving dead workers 2 and 3 in the pool and retrying nothing —
the fault does abort reconciliation for the other workers. -/
theorem C7_counterexample :
    (clean_up_dead_workers cex_claims cex_registered
        [(1, dead_worker), (2, dead_worker), (3, dead_worker)]).fault ≠ none ∧
    pool_lookup 2 (clean_up_dead_workers cex_claims cex_registered
        [(1, dead_worker), (2, dead_worker), (3, dead_worker)]).pool =
      some dead_worker ∧
    pool_lookup 3 (clean_up_dead_workers cex_claims cex_registered
        [(1, dead_worker), (2, dead_worker), (3, dead_worker)]).pool =
      some dead_worker ∧
    (clean_up_dead_workers cex_claims cex_registered
        [(1, dead_worker), (2, dead_worker), (3, dead_worker)]).retried = [] := by
  decide

/-- C7 (amended): when the scan reaches a dead worker whose orphaned
claim has an unregistered job type, the `ValueError` escapes
`clean_up_dead_workers`: entries before it have been processed (dead ones
removed and their claims retried), the faulting worker itself has been
removed, and every entry after it is left in the pool untouched, with no
retry performed for it. -/
theorem C7_fault_aborts_scan (claimedBy : WorkerId → Option JobRef)
    (registered : String → Bool) (pre post : Pool) (wid : WorkerId)
    (w : PoolWorker) (job : JobRef)
    (hpre : (clean_up_dead_workers claimedBy registered pre).fault = none)
    (hdead : w.alive = false)
    (hclaim : claimedBy wid = some job)
    (hunreg : registered job.job_type = false) :
    clean_up_dead_workers claimedBy registered (pre ++ (wid, w) :: post) =
      ⟨(clean_up_dead_workers claimedBy registered pre).pool ++ post,
        (clean_up_dead_workers claimedBy registered pre).retried,
        some ("No runner registered for job type " ++ job.job_type)⟩ := by
  rw [clean_up_append claimedBy registered pre ((wid, w) :: post) hpre,
    clean_up_cons_dead_unreg claimedBy registered wid w post job hdead hclaim hunreg]
  simp

theorem C7_witness :
    (clean_up_dead_workers cex_claims cex_registered [(2, dead_worker)]).fault =
      none ∧
    clean_up_dead_workers cex_claims cex_registered
        ([(2, dead_worker)] ++ (1, dead_worker) :: [(3, dead_worker)]) =
      ⟨(clean_up_dead_workers cex_claims cex_registered [(2, dead_worker)]).pool ++
          [(3, dead_worker)],
        (clean_up_dead_workers cex_claims cex_registered [(2, dead_worker)]).retried,
        some ("No runner registered for job type " ++ "a")⟩ :=
  ⟨by decide,
    C7_fault_aborts_scan cex_claims cex_registered [(2, dead_worker)]
      [(3, dead_worker)] 1 dead_worker ⟨10, "a"⟩
      (by decide) (by decide) (by decide) (by decide)⟩

/-! ### C2: pool size bounds after a reconciliation tick -/

theorem balance_div_false_of_filled_ne_zero (cfg : PoolConfig)
    (fresh : WorkerId → PoolWorker) (next_id : WorkerId) (qs : QueueStatus)
    (pool : Pool) (h : filled_size cfg pool ≠ 0) :
    (balance_workers cfg fresh next_id qs pool).div_by_zero = false := by
  unfold balance_workers
  rw [if_neg h]
  dsimp only
  split
  · exact (scale_down_step_spec _ _ _
      (pool_after_up_ne_nil cfg fresh next_id qs pool h)).2.2.2.2
  · rfl

theorem balance_div_true_of_filled_zero (cfg : PoolConfig)
    (fresh : WorkerId → PoolWorker) (next_id : WorkerId) (qs : QueueStatus)
    (pool : Pool) (h : filled_size cfg pool = 0) :
    (balance_workers cfg fresh next_id qs pool).div_by_zero = true := by
  unfold balance_workers
  rw [if_pos h]

theorem balance_no_stop_fields (cfg : PoolConfig) (fresh : WorkerId → PoolWorker)
    (next_id : WorkerId) (qs : QueueStatus) (pool : Pool)
    (h : filled_size cfg pool ≠ 0) (hd : ¬ scale_down_cond cfg qs pool) :
    (balance_workers cfg fresh next_id qs pool).shutdown_error = none ∧
    (balance_workers cfg fresh next_id qs pool).iter_fault = false ∧
    (balance_workers cfg fresh next_id qs pool).stop_calls = [] := by
  unfold balance_workers
  rw [if_neg h]
  dsimp only
  rw [if_neg hd]
  exact ⟨rfl, rfl, rfl⟩

theorem balance_bounds (cfg : PoolConfig) (fresh : WorkerId → PoolWorker)
    (next_id : WorkerId) (qs : QueueStatus) (pool : Pool)
    (hmm : cfg.min_workers ≤ cfg.max_workers)
    (hmax : pool.length ≤ cfg.max_workers)
    (h0 : filled_size cfg pool ≠ 0) :
    cfg.min_workers ≤ (balance_workers cfg fresh next_id qs pool).pool.length ∧
      (balance_workers cfg fresh next_id qs pool).pool.length ≤ cfg.max_workers := by
  have hfs_low : cfg.min_workers ≤ filled_size cfg pool := by
    unfold filled_size
    split <;> omega
  have hfs_high : filled_size cfg pool ≤ cfg.max_workers := by
    unfold filled_size
    split <;> omega
  have hup := balance_up_spawned cfg fresh next_id qs pool h0
  have hstop := balance_stop_calls_length cfg fresh next_id qs pool h0
  have hlen := balance_pool_length cfg fresh next_id qs pool h0
  by_cases hu : scale_up_cond cfg qs pool <;> by_cases hd : scale_down_cond cfg qs pool
  · rw [if_pos hu] at hup
    rw [if_pos hd] at hstop
    have htmax : filled_size cfg pool < cfg.max_workers := hu.2.2
    have htmin : cfg.min_workers < filled_size cfg pool := hd.2.2
    omega
  · rw [if_pos hu] at hup
    rw [if_neg hd] at hstop
    have htmax : filled_size cfg pool < cfg.max_workers := hu.2.2
    omega
  · rw [if_neg hu] at hup
    rw [if_pos hd] at hstop
    have htmin : cfg.min_workers < filled_size cfg pool := hd.2.2
    omega
  · rw [if_neg hu] at hup
    rw [if_neg hd] at hstop
    omega

/-- C2 (counterexample): with minimum 0 and maximum 0 and a pool already
holding one live worker, the reconciliation tick completes (nothing dies,
no scale action fires at pending ratio 1/2) yet leaves the pool at size
1, above the configured maximum. -/
theorem C2_counterexample :
    (PoolConfig.mk 0 0).min_workers ≤ (PoolConfig.mk 0 0).max_workers ∧
    tick_completed (reconciliation_tick ⟨0, 0⟩ (fun _ => live_worker) 10
      (fun _ => none) (fun _ => false) ⟨0, 0, (1 : ℚ)/2⟩ [(0, live_worker)]) ∧
    ¬ ((reconciliation_tick ⟨0, 0⟩ (fun _ => live_worker) 10
        (fun _ => none) (fun _ => false) ⟨0, 0, (1 : ℚ)/2⟩
        [(0, live_worker)]).pool.length ≤ (PoolConfig.mk 0 0).max_workers) := by
  have hclean : clean_up_dead_workers (fun _ => none) (fun _ => false)
      [(0, live_worker)] = ⟨[(0, live_worker)], [], none⟩ := by decide
  have h0 : filled_size ⟨0, 0⟩ ([(0, live_worker)] : Pool) ≠ 0 := by decide
  have hup : ¬ scale_up_cond ⟨0, 0⟩ ⟨0, 0, (1 : ℚ)/2⟩ [(0, live_worker)] := by
    unfold scale_up_cond load_ratio
    rw [(by decide : filled_size ⟨0, 0⟩ ([(0, live_worker)] : Pool) = 1)]
    dsimp only
    norm_num
  have hdown : ¬ scale_down_cond ⟨0, 0⟩ ⟨0, 0, (1 : ℚ)/2⟩ [(0, live_worker)] := by
    unfold scale_down_cond
    dsimp only
    norm_num
  have hstop := balance_no_stop_fields ⟨0, 0⟩ (fun _ => live_worker) 10
    ⟨0, 0, (1 : ℚ)/2⟩ [(0, live_worker)] h0 hdown
  have hdiv := balance_div_false_of_filled_ne_zero ⟨0, 0⟩ (fun _ => live_worker) 10
    ⟨0, 0, (1 : ℚ)/2⟩ [(0, live_worker)] h0
  have hupn := balance_up_spawned ⟨0, 0⟩ (fun _ => live_worker) 10
    ⟨0, 0, (1 : ℚ)/2⟩ [(0, live_worker)] h0
  rw [if_neg hup] at hupn
  have hsl := balance_stop_calls_length ⟨0, 0⟩ (fun _ => live_worker) 10
    ⟨0, 0, (1 : ℚ)/2⟩ [(0, live_worker)] h0
  rw [if_neg hdown] at hsl
  have hlen := balance_pool_length ⟨0, 0⟩ (fun _ => live_worker) 10
    ⟨0, 0, (1 : ℚ)/2⟩ [(0, live_worker)] h0
  rw [hupn, hsl, (by decide : filled_size ⟨0, 0⟩ ([(0, live_worker)] : Pool) = 1)]
    at hlen
  refine ⟨by decide, ?_, ?_⟩
  · unfold reconciliation_tick
    rw [hclean]
    exact ⟨rfl, hstop.1, hdiv, hstop.2.1⟩
  · unfold reconciliation_tick
    rw [hclean]
    dsimp only
    omega

/-- C2 (amended): for every pool whose worker count entering the tick is
at most the configured maximum (with minimum ≤ maximum), a completed
reconciliation tick — `clean_up_dead_workers` then `balance_workers`,
`stop_worker` removing the worker it stops — leaves the worker count at
least the minimum and at most the maximum. -/
theorem C2_tick_bounds_pool (cfg : PoolConfig) (fresh : WorkerId → PoolWorker)
    (next_id : WorkerId) (claimedBy : WorkerId → Option JobRef)
    (registered : String → Bool) (qs : QueueStatus) (pool : Pool)
    (hmm : cfg.min_workers ≤ cfg.max_workers)
    (hmax : pool.length ≤ cfg.max_workers)
    (hdone : tick_completed (reconciliation_tick cfg fresh next_id claimedBy
      registered qs pool)) :
    cfg.min_workers ≤ (reconciliation_tick cfg fresh next_id claimedBy
        registered qs pool).pool.length ∧
      (reconciliation_tick cfg fresh next_id claimedBy
        registered qs pool).pool.length ≤ cfg.max_workers := by
  unfold reconciliation_tick at hdone ⊢
  dsimp only at hdone ⊢
  rcases hf : (clean_up_dead_workers claimedBy registered pool).fault with _ | m
  · rw [hf] at hdone
    have hmax2 : (clean_up_dead_workers claimedBy registered pool).pool.length ≤
        cfg.max_workers :=
      le_trans (clean_up_pool_length_le claimedBy registered pool) hmax
    have h0 : filled_size cfg (clean_up_dead_workers claimedBy registered pool).pool
        ≠ 0 := by
      intro hz
      have hdiv := balance_div_true_of_filled_zero cfg fresh next_id qs
        (clean_up_dead_workers claimedBy registered pool).pool hz
      have hdiv2 : (balance_workers cfg fresh next_id qs
          (clean_up_dead_workers claimedBy registered pool).pool).div_by_zero =
          false := hdone.2.2.1
      rw [hdiv2] at hdiv
      cases hdiv
    exact balance_bounds cfg fresh next_id qs
      (clean_up_dead_workers claimedBy registered pool).pool hmm hmax2 h0
  · rw [hf] at hdone
    exact absurd hdone.1 (by simp)

theorem C2_witness :
    (PoolConfig.mk 2 3).min_workers ≤ (PoolConfig.mk 2 3).max_workers ∧
    ([(0, live_worker), (1, dead_worker)] : Pool).length ≤
      (PoolConfig.mk 2 3).max_workers ∧
    tick_completed (reconciliation_tick ⟨2, 3⟩ (fun _ => live_worker) 10
      (fun _ => none) (fun _ => false) ⟨0, 0, (1 : ℚ)/2⟩
      [(0, live_worker), (1, dead_worker)]) ∧
    ((PoolConfig.mk 2 3).min_workers ≤ (reconciliation_tick ⟨2, 3⟩
        (fun _ => live_worker) 10 (fun _ => none) (fun _ => false)
        ⟨0, 0, (1 : ℚ)/2⟩ [(0, live_worker), (1, dead_worker)]).pool.length ∧
      (reconciliation_tick ⟨2, 3⟩ (fun _ => live_worker) 10 (fun _ => none)
        (fun _ => false) ⟨0, 0, (1 : ℚ)/2⟩
        [(0, live_worker), (1, dead_worker)]).pool.length ≤
        (PoolConfig.mk 2 3).max_workers) := by
  have hclean : clean_up_dead_workers (fun _ => none) (fun _ => false)
      [(0, live_worker), (1, dead_worker)] = ⟨[(0, live_worker)], [], none⟩ := by
    decide
  have h0 : filled_size ⟨2, 3⟩ ([(0, live_worker)] : Pool) ≠ 0 := by decide
  have hdown : ¬ scale_down_cond ⟨2, 3⟩ ⟨0, 0, (1 : ℚ)/2⟩ [(0, live_worker)] := by
    unfold scale_down_cond
    dsimp only
    norm_num
  have hstop := balance_no_stop_fields ⟨2, 3⟩ (fun _ => live_worker) 10
    ⟨0, 0, (1 : ℚ)/2⟩ [(0, live_worker)] h0 hdown
  have hdiv := balance_div_false_of_filled_ne_zero ⟨2, 3⟩ (fun _ => live_worker) 10
    ⟨0, 0, (1 : ℚ)/2⟩ [(0, live_worker)] h0
  have hdone : tick_completed (reconciliation_tick ⟨2, 3⟩ (fun _ => live_worker) 10
      (fun _ => none) (fun _ => false) ⟨0, 0, (1 : ℚ)/2⟩
      [(0, live_worker), (1, dead_worker)]) := by
    unfold reconciliation_tick
    rw [hclean]
    exact ⟨rfl, hstop.1, hdiv, hstop.2.1⟩
  exact ⟨by decide, by decide, hdone,
    C2_tick_bounds_pool ⟨2, 3⟩ (fun _ => live_worker) 10 (fun _ => none)
      (fun _ => false) ⟨0, 0, (1 : ℚ)/2⟩ [(0, live_worker), (1, dead_worker)]
      (by decide) (by decide) hdone⟩

end ChandraGen
